import Mathlib

/-!
Verification of the batched ledger-operation orchestrator in
`src/toolkits/solana/src/index.ts`.

The TypeScript source is shallowly embedded:

* Remote RPC round trips (the Connection Facade) are modelled as environment
  records whose fields give the response of each call the code makes; a field
  of type `Except String t` is `.error e` when the underlying call throws
  (the string is the thrown error's message) and `.ok v` when it resolves.
* Each executor returns its result value together with the list of facade
  calls it performed, so "a step is never invoked" is the absence of the
  corresponding call in the trace.
* JavaScript numbers are embedded as `Nat` (lamport amounts, counts) or `Rat`
  (SOL amounts obtained by division through `LAMPORTS_PER_SOL`).
* The `try/catch` wrappers become the propagation of `.error` branches into
  the returned outcome value.
-/

/-- Lamports per SOL, as used by the divisions in the source. -/
def LAMPORTS_PER_SOL : ℚ := 1000000000

/-- `TokenAccount` record produced by the scanner (interface TokenAccount). -/
structure TokenAccount where
  address : String
  mint : String
  rentLamports : ℕ
  rentSol : ℚ
deriving DecidableEq, Repr

/-- Result of the whole scan (interface TokenAccountsResult). -/
structure TokenAccountsResult where
  totalAccounts : ℕ
  closableAccounts : ℕ
  accounts : List TokenAccount
  totalRentLamports : ℕ
  totalRentSol : ℚ
deriving DecidableEq, Repr

/-- Outcome of one closure attempt (interface ClosureResult). -/
structure ClosureResult where
  success : Bool
  signature : Option String := none
  error : Option String := none
  accountAddress : String
  rentRecovered : ℚ
deriving DecidableEq, Repr

/-- SPL token account state returned by `getAccount` (only the field the code
reads: the token `amount`, a bigint). -/
structure SplAccountInfo where
  amount : ℕ
deriving DecidableEq, Repr

/-- Account info returned by `connection.getAccountInfo` (only the `lamports`
field is read). -/
structure AccountInfo where
  lamports : ℕ
deriving DecidableEq, Repr

/-- The facade calls the executors can perform, recorded in traces. -/
inductive FacadeCall
  | getAccount
  | getBalance
  | sendAndConfirmTransaction
  | getLatestBlockhash
  | simulateTransaction
  | sign
  | sendTransaction
  | confirmTransaction
deriving DecidableEq, Repr

/-- Environment for one `closeAccount` call: the response of each facade call
the method makes, in source order. -/
structure CloseEnv where
  getAccount : Except String SplAccountInfo
  getBalance : Except String ℕ
  sendAndConfirmTransaction : Except String String

/-- The exported `TokenAccountManager.closeAccount`
(src/toolkits/solana/src/index.ts lines 333-386).  Returns the
`ClosureResult` and the trace of facade calls performed.  Note the success
branch returns `rentRecovered := 0` (the source line 376 carries a TODO to
compute the actual recovered rent). -/
def closeAccount (env : CloseEnv) (accountPubkey : String) :
    ClosureResult × List FacadeCall :=
  match env.getAccount with
  | .error e =>
      ({ success := false, error := some e, accountAddress := accountPubkey,
         rentRecovered := 0 }, [.getAccount])
  | .ok accountInfo =>
      if accountInfo.amount > 0 then
        ({ success := false, error := some "账户余额不为0，无法关闭",
           accountAddress := accountPubkey, rentRecovered := 0 }, [.getAccount])
      else
        match env.getBalance with
        | .error e =>
            ({ success := false, error := some e,
               accountAddress := accountPubkey, rentRecovered := 0 },
             [.getAccount, .getBalance])
        | .ok _rentBefore =>
            match env.sendAndConfirmTransaction with
            | .error e =>
                ({ success := false, error := some e,
                   accountAddress := accountPubkey, rentRecovered := 0 },
                 [.getAccount, .getBalance, .sendAndConfirmTransaction])
            | .ok sig =>
                ({ success := true, signature := some sig,
                   accountAddress := accountPubkey, rentRecovered := 0 },
                 [.getAccount, .getBalance, .sendAndConfirmTransaction])

/-- The earlier, non-exported `TokenAccountManager.closeAccount` in the same
file (lines 64-117).  Identical control flow, but its success branch returns
`rentRecovered := rentBefore / LAMPORTS_PER_SOL`: the pre-closure deposit. -/
def closeAccountLegacy (env : CloseEnv) (accountPubkey : String) :
    ClosureResult × List FacadeCall :=
  match env.getAccount with
  | .error e =>
      ({ success := false, error := some e, accountAddress := accountPubkey,
         rentRecovered := 0 }, [.getAccount])
  | .ok accountInfo =>
      if accountInfo.amount > 0 then
        ({ success := false, error := some "账户余额不为0，无法关闭",
           accountAddress := accountPubkey, rentRecovered := 0 }, [.getAccount])
      else
        match env.getBalance with
        | .error e =>
            ({ success := false, error := some e,
               accountAddress := accountPubkey, rentRecovered := 0 },
             [.getAccount, .getBalance])
        | .ok rentBefore =>
            match env.sendAndConfirmTransaction with
            | .error e =>
                ({ success := false, error := some e,
                   accountAddress := accountPubkey, rentRecovered := 0 },
                 [.getAccount, .getBalance, .sendAndConfirmTransaction])
            | .ok sig =>
                ({ success := true, signature := some sig,
                   accountAddress := accountPubkey,
                   rentRecovered := (rentBefore : ℚ) / LAMPORTS_PER_SOL },
                 [.getAccount, .getBalance, .sendAndConfirmTransaction])

/-- Fee tuning knobs (interface TransferConfig). -/
structure TransferConfig where
  computeUnitPrice : Option ℕ := none
  computeUnitLimit : Option ℕ := none
deriving DecidableEq, Repr

/-- Instructions the transfer path can assemble. -/
inductive Instruction
  | setComputeUnitPrice (microLamports : ℕ)
  | setComputeUnitLimit (units : ℕ)
  | transfer (fromPubkey toPubkey : String) (lamports : ℕ)
deriving DecidableEq, Repr

/-- JavaScript truthiness of an optional number: `undefined`, and the number
`0`, are falsy; any other number is truthy.  This is the semantics of
`if (config?.computeUnitPrice)` in the source. -/
def jsTruthy : Option ℕ → Bool
  | none => false
  | some n => n != 0

/-- Instruction assembly of `TransferManager.transfer` (lines 488-516):
push the compute-unit-price directive when its config value is truthy, then
the compute-unit-limit directive when truthy, then the system transfer. -/
def buildTransferInstructions (fromPubkey toAddress : String) (lamports : ℕ)
    (config : Option TransferConfig) : List Instruction :=
  let instructions : List Instruction := []
  let cuPrice := config.bind TransferConfig.computeUnitPrice
  let instructions :=
    if jsTruthy cuPrice then
      instructions ++ [Instruction.setComputeUnitPrice (cuPrice.getD 0)]
    else instructions
  let cuLimit := config.bind TransferConfig.computeUnitLimit
  let instructions :=
    if jsTruthy cuLimit then
      instructions ++ [Instruction.setComputeUnitLimit (cuLimit.getD 0)]
    else instructions
  instructions ++ [Instruction.transfer fromPubkey toAddress lamports]

/-- Latest blockhash response. -/
structure Blockhash where
  blockhash : String
  lastValidBlockHeight : ℕ
deriving DecidableEq, Repr

/-- Simulation response value (`simulateResult.value`); `err = some s` means
the simulation reported an error whose JSON rendering is `s`. -/
structure SimValue where
  err : Option String
deriving DecidableEq, Repr

/-- Confirmation response value (`confirmation.value`). -/
structure ConfirmValue where
  err : Option String
deriving DecidableEq, Repr

/-- Transaction format tag: `compileToV0Message` yields a v0 message. -/
inductive TransactionVersion
  | legacy
  | v0
deriving DecidableEq, Repr

/-- Compiled message (the fields of `TransactionMessage` the code sets). -/
structure MessageV0 where
  payerKey : String
  recentBlockhash : String
  instructions : List Instruction
deriving DecidableEq, Repr

/-- A versioned transaction wrapping a compiled message. -/
structure VersionedTransaction where
  version : TransactionVersion
  message : MessageV0
  signers : List String := []
deriving DecidableEq, Repr

/-- `new TransactionMessage({...}).compileToV0Message()` followed by
`new VersionedTransaction(messageV0)`: a v0-format transaction. -/
def buildTransferTransaction (wallet : String) (latestBlockhash : Blockhash)
    (toAddress : String) (lamports : ℕ) (config : Option TransferConfig) :
    VersionedTransaction :=
  { version := TransactionVersion.v0
    message :=
      { payerKey := wallet
        recentBlockhash := latestBlockhash.blockhash
        instructions := buildTransferInstructions wallet toAddress lamports config } }

/-- `transaction.sign([this.wallet])`: local signing, cannot fail. -/
def signTransaction (tx : VersionedTransaction) (wallet : String) :
    VersionedTransaction :=
  { tx with signers := [wallet] }

/-- Outcome of one transfer attempt (interface TransferResult). -/
structure TransferResult where
  success : Bool
  signature : Option String := none
  error : Option String := none
  simulateResult : Option SimValue := none
  url : Option String := none
deriving DecidableEq, Repr

/-- Environment for one `transfer` call: the response of each facade call. -/
structure TransferEnv where
  getLatestBlockhash : Except String Blockhash
  simulateTransaction : VersionedTransaction → Except String SimValue
  sendTransaction : VersionedTransaction → Except String String
  confirmTransaction : String → Blockhash → Except String ConfirmValue

/-- `TransferManager.transfer` (lines 482-584).  Builds the instruction list
and a v0 versioned transaction, simulates it, and only if the simulated value
reports no error signs, sends and confirms; every thrown error is caught and
returned as a `success := false` outcome.  Returns the outcome and the trace
of facade calls (with `sign` recorded as the local signing step). -/
def transfer (env : TransferEnv) (wallet toAddress : String) (lamports : ℕ)
    (config : Option TransferConfig) : TransferResult × List FacadeCall :=
  match env.getLatestBlockhash with
  | .error e => ({ success := false, error := some e }, [.getLatestBlockhash])
  | .ok latestBlockhash =>
      let transaction :=
        buildTransferTransaction wallet latestBlockhash toAddress lamports config
      match env.simulateTransaction transaction with
      | .error e =>
          ({ success := false, error := some e },
           [.getLatestBlockhash, .simulateTransaction])
      | .ok simulateResult =>
          match simulateResult.err with
          | some err =>
              ({ success := false,
                 error := some ("交易模拟失败: " ++ err) },
               [.getLatestBlockhash, .simulateTransaction])
          | none =>
              match env.sendTransaction (signTransaction transaction wallet) with
              | .error e =>
                  ({ success := false, error := some e },
                   [.getLatestBlockhash, .simulateTransaction, .sign,
                    .sendTransaction])
              | .ok sig =>
                  match env.confirmTransaction sig latestBlockhash with
                  | .error e =>
                      ({ success := false, error := some e },
                       [.getLatestBlockhash, .simulateTransaction, .sign,
                        .sendTransaction, .confirmTransaction])
                  | .ok confirmation =>
                      match confirmation.err with
                      | some _ =>
                          ({ success := false, error := some "交易未确认" },
                           [.getLatestBlockhash, .simulateTransaction, .sign,
                            .sendTransaction, .confirmTransaction])
                      | none =>
                          ({ success := true, signature := some sig,
                             simulateResult := some simulateResult,
                             url := some ("https://solscan.io/tx/" ++ sig) },
                           [.getLatestBlockhash, .simulateTransaction, .sign,
                            .sendTransaction, .confirmTransaction])

/-- Parsed token info of one holding record
(`account.account.data.parsed.info`): the fields the scanner reads. -/
structure ParsedTokenInfo where
  mint : String
  uiAmount : ℚ
deriving DecidableEq, Repr

/-- One raw holding record returned by `getParsedTokenAccountsByOwner`.
`info = .error e` models a malformed record: accessing its parsed fields
throws `e`. -/
structure Holding where
  pubkey : String
  info : Except String ParsedTokenInfo

/-- Environment for one scan: the holder-accounts response, and the
single-account-info response for each pubkey the scan looks up. -/
structure ScanEnv where
  getParsedTokenAccountsByOwner : Except String (List Holding)
  getAccountInfo : String → Except String (Option AccountInfo)

/-- The `.filter` step (lines 644-648): keep the holdings whose
`tokenAmount.uiAmount === 0`; reading a malformed record's fields throws,
which aborts the whole pipeline with that error. -/
def filterZeroBalance : List Holding → Except String (List Holding)
  | [] => .ok []
  | h :: rest =>
      match h.info with
      | .error e => .error e
      | .ok info =>
          match filterZeroBalance rest with
          | .error e => .error e
          | .ok tail => .ok (if info.uiAmount = 0 then h :: tail else tail)

/-- The `.map` step for one surviving holding (lines 649-658): secondary
`getAccountInfo` lookup; a `null` account info yields `rentLamports = 0`
(`accountInfo?.lamports || 0`). -/
def buildCandidate (env : ScanEnv) (h : Holding) : Except String TokenAccount :=
  match h.info with
  | .error e => .error e
  | .ok info =>
      match env.getAccountInfo h.pubkey with
      | .error e => .error e
      | .ok accountInfo =>
          let rentLamports := (accountInfo.map AccountInfo.lamports).getD 0
          .ok { address := h.pubkey
                mint := info.mint
                rentLamports := rentLamports
                rentSol := (rentLamports : ℚ) / LAMPORTS_PER_SOL }

/-- `Promise.all` over the mapped lookups: the first failing lookup rejects
the whole pipeline. -/
def mapCandidates (env : ScanEnv) : List Holding → Except String (List TokenAccount)
  | [] => .ok []
  | h :: rest =>
      match buildCandidate env h with
      | .error e => .error e
      | .ok c =>
          match mapCandidates env rest with
          | .error e => .error e
          | .ok cs => .ok (c :: cs)

/-- Body of the `try` block of `getClosableTokenAccounts` (lines 635-691). -/
def scanBody (env : ScanEnv) : Except String TokenAccountsResult :=
  match env.getParsedTokenAccountsByOwner with
  | .error e => .error e
  | .ok tokenAccounts =>
      match filterZeroBalance tokenAccounts with
      | .error e => .error e
      | .ok zeroBalance =>
          match mapCandidates env zeroBalance with
          | .error e => .error e
          | .ok accountInfos =>
              let totalRentLamports :=
                accountInfos.foldl (fun sum account => sum + account.rentLamports) 0
              .ok { totalAccounts := tokenAccounts.length
                    closableAccounts := accountInfos.length
                    accounts := accountInfos
                    totalRentLamports := totalRentLamports
                    totalRentSol := (totalRentLamports : ℚ) / LAMPORTS_PER_SOL }

/-- `getClosableTokenAccounts` (lines 625-699): empty wallet address throws
before the try block; any error inside the try block is logged and rethrown
wrapped in 查询代币账户失败. -/
def getClosableTokenAccounts (env : ScanEnv) (walletAddress : String) :
    Except String TokenAccountsResult :=
  if walletAddress = "" then .error "钱包地址不能为空"
  else
    match scanBody env with
    | .ok r => .ok r
    | .error e => .error ("查询代币账户失败: " ++ e)

/-- The chunking loop of `batchCloseAccounts` (lines 396-418): repeatedly
slice off the next `batchSize` accounts.  The `while (processed < total)`
loop is embedded structurally with a counter that starts at the list length
and strictly bounds the number of iterations (each iteration removes at least
one element when `batchSize` is positive, exactly as `processed` strictly
grows in the source). -/
def chunksGo (batchSize : ℕ) : ℕ → List α → List (List α)
  | _, [] => []
  | 0, _ :: _ => []
  | fuel + 1, x :: xs =>
      ((x :: xs).take batchSize) :: chunksGo batchSize fuel ((x :: xs).drop batchSize)

/-- The chunks `batchCloseAccounts` slices `accounts` into. -/
def chunks (batchSize : ℕ) (accounts : List α) : List (List α) :=
  chunksGo batchSize accounts.length accounts

/-- One scheduling event of the batch loop: a concurrently processed chunk,
or the inter-chunk pause (`setTimeout`). -/
inductive BatchEvent (α : Type)
  | chunk (items : List α)
  | delay (ms : ℕ)
deriving DecidableEq, Repr

/-- Schedule produced by the loop of the exported `batchCloseAccounts`:
process a chunk, then, if accounts remain (`processed < total`), pause
`delayMs` milliseconds before the next chunk. -/
def batchScheduleGo (batchSize delayMs : ℕ) : ℕ → List α → List (BatchEvent α)
  | _, [] => []
  | 0, _ :: _ => []
  | fuel + 1, x :: xs =>
      if ((x :: xs).drop batchSize).isEmpty then
        [BatchEvent.chunk ((x :: xs).take batchSize)]
      else
        BatchEvent.chunk ((x :: xs).take batchSize) ::
          BatchEvent.delay delayMs ::
            batchScheduleGo batchSize delayMs fuel ((x :: xs).drop batchSize)

/-- The full schedule of the exported `batchCloseAccounts` (inter-chunk delay
1000 ms, line 416). -/
def batchSchedule (batchSize : ℕ) (accounts : List α) : List (BatchEvent α) :=
  batchScheduleGo batchSize 1000 accounts.length accounts

/-- The closure outcomes collected by the exported `batchCloseAccounts`
(lines 389-425): every chunk is mapped through `closeAccount` and the chunk
results are concatenated in order.  `env` gives each account address its
facade behaviour. -/
def batchCloseResults (env : String → CloseEnv) (batchSize : ℕ)
    (accounts : List TokenAccount) : List ClosureResult :=
  ((chunks batchSize accounts).map
    (fun batch => batch.map
      (fun account => (closeAccount (env account.address) account.address).1))).flatten

/-- Final tallies logged by `batchCloseAccounts` (`processed`, `succeeded`). -/
def batchCloseSucceeded (env : String → CloseEnv) (batchSize : ℕ)
    (accounts : List TokenAccount) : ℕ :=
  ((batchCloseResults env batchSize accounts).filter (fun r => r.success)).length

/-- Accumulator of the statistics loop of the legacy `batchCloseAccounts`
(lines 132-134, 149-161). -/
structure BatchTally where
  successCount : ℕ
  failCount : ℕ
  totalRentRecovered : ℚ
deriving DecidableEq, Repr

/-- One step of the statistics loop (lines 149-161). -/
def tallyStep (t : BatchTally) (result : ClosureResult) : BatchTally :=
  if result.success then
    { t with successCount := t.successCount + 1
             totalRentRecovered := t.totalRentRecovered + result.rentRecovered }
  else
    { t with failCount := t.failCount + 1 }

/-- Statistics over all collected results. -/
def tallyResults (results : List ClosureResult) : BatchTally :=
  results.foldl tallyStep { successCount := 0, failCount := 0, totalRentRecovered := 0 }

/-- Result accounting of the legacy `batchCloseAccounts` (lines 170-175):
`actualRecovered = balanceAfterSOL - balanceBeforeSOL` and
`gasConsumed = actualRecovered - totalRentRecovered`. -/
def gasConsumed (balanceBeforeSOL balanceAfterSOL : ℚ)
    (results : List ClosureResult) : ℚ :=
  (balanceAfterSOL - balanceBeforeSOL) - (tallyResults results).totalRentRecovered

/-- Recognizer for the fee-priority directive. -/
def isSetComputeUnitPrice : Instruction → Bool
  | .setComputeUnitPrice _ => true
  | _ => false

/-- Recognizer for the compute-unit-limit directive. -/
def isSetComputeUnitLimit : Instruction → Bool
  | .setComputeUnitLimit _ => true
  | _ => false

/-- A fee config that sets the compute-unit price to the provided value 0. -/
def cfgZeroPrice : TransferConfig := { computeUnitPrice := some 0 }

/-- Facade behaviour of a closure whose account holds a zero token balance,
with a 2039280-lamport rent deposit, and whose send succeeds. -/
def envCloseOk : CloseEnv :=
  { getAccount := .ok { amount := 0 }
    getBalance := .ok 2039280
    sendAndConfirmTransaction := .ok "Sig111" }

/-- Facade behaviour of a closure candidate whose re-fetched balance is the
non-zero token amount 42. -/
def envCloseNonzero : CloseEnv :=
  { getAccount := .ok { amount := 42 }
    getBalance := .ok 2039280
    sendAndConfirmTransaction := .ok "Sig222" }

/-- Facade behaviour where every call of a closure throws. -/
def envCloseAllFail : CloseEnv :=
  { getAccount := .error "node unreachable"
    getBalance := .error "node unreachable"
    sendAndConfirmTransaction := .error "node unreachable" }

/-- Transfer facade whose simulation resolves but reports an error. -/
def envTransferSimErr : TransferEnv :=
  { getLatestBlockhash := .ok { blockhash := "Hash1", lastValidBlockHeight := 100 }
    simulateTransaction := fun _ => .ok { err := some "InsufficientFundsForFee" }
    sendTransaction := fun _ => .ok "Sig333"
    confirmTransaction := fun _ _ => .ok { err := none } }

/-- Three concrete scanner candidates used to exercise the batch loop. -/
def accountsThree : List TokenAccount :=
  [ { address := "Acc1", mint := "MintA", rentLamports := 2039280, rentSol := 0 },
    { address := "Acc2", mint := "MintB", rentLamports := 2039280, rentSol := 0 },
    { address := "Acc3", mint := "MintC", rentLamports := 2039280, rentSol := 0 } ]

/-- A batch environment in which every account's closure fails. -/
def envBatchAllFail : String → CloseEnv := fun _ => envCloseAllFail

/-- A single all-success outcome reporting 0.10 SOL recovered. -/
def resultsTenth : List ClosureResult :=
  [ { success := true, signature := some "SigA", accountAddress := "Acc1",
      rentRecovered := 1/10 } ]

/-- A well-formed zero-balance holding. -/
def holdingGood : Holding := { pubkey := "Good", info := .ok { mint := "MintA", uiAmount := 0 } }

/-- A malformed holding record: reading its parsed fields throws. -/
def holdingBad : Holding := { pubkey := "Bad", info := .error "malformed record" }

/-- Scan environment with one well-formed and one malformed holding; every
secondary lookup resolves. -/
def scanEnvMalformed : ScanEnv :=
  { getParsedTokenAccountsByOwner := .ok [holdingGood, holdingBad]
    getAccountInfo := fun _ => .ok (some { lamports := 2039280 }) }

/-- A zero-balance holding whose secondary lookup returns no account record. -/
def holdingNoInfo : Holding := { pubkey := "Empty", info := .ok { mint := "MintB", uiAmount := 0 } }

/-- Scan environment for `holdingNoInfo`: the secondary lookup resolves to
`null`. -/
def scanEnvNoInfo : ScanEnv :=
  { getParsedTokenAccountsByOwner := .ok [holdingNoInfo]
    getAccountInfo := fun _ => .ok none }

/-- The candidate list a scan returns, or the empty list when the scan
aborts with an error. -/
def scanAccountsOrEmpty (env : ScanEnv) (walletAddress : String) :
    List TokenAccount :=
  match getClosableTokenAccounts env walletAddress with
  | .ok r => r.accounts
  | .error _ => []

/-- C1: for every transfer request whose simulation reports an error,
`transfer` returns an outcome with `success = false` carrying that simulation
error, and neither the sign step nor any transaction-send call appears in the
facade trace. -/
theorem transfer_sim_error_no_send
    (env : TransferEnv) (wallet toAddress : String) (lamports : ℕ)
    (config : Option TransferConfig) (bh : Blockhash) (sim : SimValue) (e : String)
    (hbh : env.getLatestBlockhash = .ok bh)
    (hsim : env.simulateTransaction
      (buildTransferTransaction wallet bh toAddress lamports config) = .ok sim)
    (herr : sim.err = some e) :
    (transfer env wallet toAddress lamports config).1.success = false ∧
    (transfer env wallet toAddress lamports config).1.error =
      some ("交易模拟失败: " ++ e) ∧
    FacadeCall.sign ∉ (transfer env wallet toAddress lamports config).2 ∧
    FacadeCall.sendTransaction ∉ (transfer env wallet toAddress lamports config).2 ∧
    FacadeCall.sendAndConfirmTransaction ∉ (transfer env wallet toAddress lamports config).2 := by
  simp [transfer, hbh, hsim, herr]

/-- Witness for C1 at a concrete environment. -/
theorem transfer_sim_error_no_send_witness :
    (transfer envTransferSimErr "W1" "W2" 5000 none).1.success = false ∧
    (transfer envTransferSimErr "W1" "W2" 5000 none).1.error =
      some ("交易模拟失败: " ++ "InsufficientFundsForFee") ∧
    FacadeCall.sign ∉ (transfer envTransferSimErr "W1" "W2" 5000 none).2 ∧
    FacadeCall.sendTransaction ∉ (transfer envTransferSimErr "W1" "W2" 5000 none).2 ∧
    FacadeCall.sendAndConfirmTransaction ∉ (transfer envTransferSimErr "W1" "W2" 5000 none).2 :=
  transfer_sim_error_no_send envTransferSimErr "W1" "W2" 5000 none
    { blockhash := "Hash1", lastValidBlockHeight := 100 }
    { err := some "InsufficientFundsForFee" } "InsufficientFundsForFee"
    rfl rfl rfl

/-- C2: for every candidate whose re-fetched live token balance is non-zero,
both versions of `closeAccount` return `success = false` with the
balance-not-zero precondition error and perform no further facade call after
the balance re-check: in particular no transaction is sent. -/
theorem closeAccount_nonzero_balance_aborts
    (env : CloseEnv) (addr : String) (info : SplAccountInfo)
    (hacct : env.getAccount = .ok info) (hpos : 0 < info.amount) :
    ((closeAccount env addr).1 =
       { success := false, error := some "账户余额不为0，无法关闭",
         accountAddress := addr, rentRecovered := 0 } ∧
     (closeAccount env addr).2 = [FacadeCall.getAccount] ∧
     FacadeCall.sendAndConfirmTransaction ∉ (closeAccount env addr).2) ∧
    ((closeAccountLegacy env addr).1 =
       { success := false, error := some "账户余额不为0，无法关闭",
         accountAddress := addr, rentRecovered := 0 } ∧
     (closeAccountLegacy env addr).2 = [FacadeCall.getAccount] ∧
     FacadeCall.sendAndConfirmTransaction ∉ (closeAccountLegacy env addr).2) := by
  simp [closeAccount, closeAccountLegacy, hacct, hpos]

/-- Witness for C2 at a concrete environment with token amount 42. -/
theorem closeAccount_nonzero_balance_aborts_witness :
    ((closeAccount envCloseNonzero "Acc1").1 =
       { success := false, error := some "账户余额不为0，无法关闭",
         accountAddress := "Acc1", rentRecovered := 0 } ∧
     (closeAccount envCloseNonzero "Acc1").2 = [FacadeCall.getAccount] ∧
     FacadeCall.sendAndConfirmTransaction ∉ (closeAccount envCloseNonzero "Acc1").2) ∧
    ((closeAccountLegacy envCloseNonzero "Acc1").1 =
       { success := false, error := some "账户余额不为0，无法关闭",
         accountAddress := "Acc1", rentRecovered := 0 } ∧
     (closeAccountLegacy envCloseNonzero "Acc1").2 = [FacadeCall.getAccount] ∧
     FacadeCall.sendAndConfirmTransaction ∉ (closeAccountLegacy envCloseNonzero "Acc1").2) :=
  closeAccount_nonzero_balance_aborts envCloseNonzero "Acc1" { amount := 42 }
    rfl (by decide)

/-- C3: for every facade behaviour (including any failing facade call) the
executors terminate with an outcome value rather than raising: the outcome
either has `success = true` (with a signature and no error) or has
`success = false` with an error message describing the failure. -/
theorem executors_never_raise (cenv : CloseEnv) (addr : String)
    (tenv : TransferEnv) (wallet toAddress : String) (lamports : ℕ)
    (config : Option TransferConfig) :
    (((closeAccount cenv addr).1.success = true ∧
      (closeAccount cenv addr).1.error = none ∧
      (closeAccount cenv addr).1.signature.isSome = true) ∨
     ((closeAccount cenv addr).1.success = false ∧
      (closeAccount cenv addr).1.error.isSome = true)) ∧
    (((transfer tenv wallet toAddress lamports config).1.success = true ∧
      (transfer tenv wallet toAddress lamports config).1.error = none ∧
      (transfer tenv wallet toAddress lamports config).1.signature.isSome = true) ∨
     ((transfer tenv wallet toAddress lamports config).1.success = false ∧
      (transfer tenv wallet toAddress lamports config).1.error.isSome = true)) := by
  constructor
  · rcases hacct : cenv.getAccount with e | info
    · right; simp [closeAccount, hacct]
    · by_cases hamt : info.amount > 0
      · right; simp [closeAccount, hacct, hamt]
      · rcases hbal : cenv.getBalance with e | rent
        · right; simp [closeAccount, hacct, hamt, hbal]
        · rcases hsend : cenv.sendAndConfirmTransaction with e | sig
          · right; simp [closeAccount, hacct, hamt, hbal, hsend]
          · left; simp [closeAccount, hacct, hamt, hbal, hsend]
  · rcases hbh : tenv.getLatestBlockhash with e | bh
    · right; simp [transfer, hbh]
    · rcases hsim : tenv.simulateTransaction
        (buildTransferTransaction wallet bh toAddress lamports config) with e | sim
      · right; simp [transfer, hbh, hsim]
      · rcases herr : sim.err with _ | e
        · rcases hsend : tenv.sendTransaction
            (signTransaction
              (buildTransferTransaction wallet bh toAddress lamports config)
              wallet) with e | sig
          · right; simp [transfer, hbh, hsim, herr, hsend]
          · rcases hconf : tenv.confirmTransaction sig bh with e | conf
            · right; simp [transfer, hbh, hsim, herr, hsend, hconf]
            · rcases hcerr : conf.err with _ | e
              · left; simp [transfer, hbh, hsim, herr, hsend, hconf, hcerr]
              · right; simp [transfer, hbh, hsim, herr, hsend, hconf, hcerr]
        · right; simp [transfer, hbh, hsim, herr]

/-- C7: evaluation of the exported `closeAccount` at a successful closure of
an account with a 2039280-lamport pre-closure deposit.  The outcome reports
`success = true` with the transaction signature but `rentRecovered = 0`,
while the earlier in-file version reports the pre-closure deposit
(2039280 lamports, expressed in SOL). -/
theorem closeAccount_success_rentRecovered_zero :
    (closeAccount envCloseOk "Addr").1.success = true ∧
    (closeAccount envCloseOk "Addr").1.signature = some "Sig111" ∧
    (closeAccount envCloseOk "Addr").1.rentRecovered = 0 ∧
    (closeAccountLegacy envCloseOk "Addr").1.success = true ∧
    (closeAccountLegacy envCloseOk "Addr").1.rentRecovered =
      2039280 / LAMPORTS_PER_SOL ∧
    (closeAccountLegacy envCloseOk "Addr").1.rentRecovered ≠ 0 := by
  refine ⟨rfl, rfl, rfl, rfl, ?_, ?_⟩ <;>
    norm_num [closeAccountLegacy, envCloseOk, LAMPORTS_PER_SOL]

theorem chunksGo_nil (b fuel : ℕ) : chunksGo b fuel ([] : List α) = [] := by
  cases fuel <;> rfl

theorem chunksGo_ne_nil (b : ℕ) :
    ∀ (fuel : ℕ) (l : List α), l.length ≤ fuel → l ≠ [] →
      chunksGo b fuel l ≠ [] := by
  intro fuel
  cases fuel with
  | zero =>
      intro l hl hne
      exact absurd (List.length_eq_zero.mp (Nat.le_zero.mp hl)) hne
  | succ n =>
      intro l hl hne
      cases l with
      | nil => exact absurd rfl hne
      | cons x xs => simp [chunksGo]

theorem chunksGo_flatten (b : ℕ) (hb : 0 < b) :
    ∀ (fuel : ℕ) (l : List α), l.length ≤ fuel →
      (chunksGo b fuel l).flatten = l := by
  intro fuel
  induction fuel with
  | zero =>
      intro l hl
      rw [List.length_eq_zero.mp (Nat.le_zero.mp hl), chunksGo_nil]
      rfl
  | succ n ih =>
      intro l hl
      cases l with
      | nil => rfl
      | cons x xs =>
          have hx : xs.length + 1 ≤ n + 1 := by simpa using hl
          have hdrop : ((x :: xs).drop b).length ≤ n := by
            simp only [List.length_drop, List.length_cons]
            omega
          show ((x :: xs).take b :: chunksGo b n ((x :: xs).drop b)).flatten = x :: xs
          rw [List.flatten_cons, ih ((x :: xs).drop b) hdrop]
          exact List.take_append_drop b (x :: xs)

theorem chunksGo_length (b : ℕ) (hb : 0 < b) :
    ∀ (fuel : ℕ) (l : List α), l.length ≤ fuel →
      (chunksGo b fuel l).length = (l.length + b - 1) / b := by
  intro fuel
  induction fuel with
  | zero =>
      intro l hl
      rw [List.length_eq_zero.mp (Nat.le_zero.mp hl), chunksGo_nil]
      simp [Nat.div_eq_of_lt (show b - 1 < b by omega)]
  | succ n ih =>
      intro l hl
      cases l with
      | nil =>
          rw [chunksGo_nil]
          simp [Nat.div_eq_of_lt (show b - 1 < b by omega)]
      | cons x xs =>
          have hx : xs.length + 1 ≤ n + 1 := by simpa using hl
          have hdrop : ((x :: xs).drop b).length ≤ n := by
            simp only [List.length_drop, List.length_cons]
            omega
          show (chunksGo b n ((x :: xs).drop b)).length + 1 =
            ((x :: xs).length + b - 1) / b
          rw [ih ((x :: xs).drop b) hdrop]
          simp only [List.length_drop, List.length_cons]
          have h1 : xs.length + 1 + b - 1 = xs.length + b := by omega
          rw [h1, Nat.add_div_right _ hb]
          by_cases hbm : b ≤ xs.length + 1
          · have h2 : xs.length + 1 - b + b - 1 = xs.length := by omega
            rw [h2]
          · have h2 : xs.length + 1 - b + b - 1 = b - 1 := by omega
            rw [h2, Nat.div_eq_of_lt (show b - 1 < b by omega),
              Nat.div_eq_of_lt (show xs.length < b by omega)]

theorem chunksGo_dropLast (b : ℕ) (hb : 0 < b) :
    ∀ (fuel : ℕ) (l : List α), l.length ≤ fuel →
      ∀ c ∈ (chunksGo b fuel l).dropLast, c.length = b := by
  intro fuel
  induction fuel with
  | zero =>
      intro l hl c hc
      rw [List.length_eq_zero.mp (Nat.le_zero.mp hl), chunksGo_nil] at hc
      simp at hc
  | succ n ih =>
      intro l hl c hc
      cases l with
      | nil => rw [chunksGo_nil] at hc; simp at hc
      | cons x xs =>
          have hx : xs.length + 1 ≤ n + 1 := by simpa using hl
          have hdrop : ((x :: xs).drop b).length ≤ n := by
            simp only [List.length_drop, List.length_cons]
            omega
          by_cases hrest : (x :: xs).drop b = []
          · have : chunksGo b (n + 1) (x :: xs) = [(x :: xs).take b] := by
              show (x :: xs).take b :: chunksGo b n ((x :: xs).drop b) = _
              rw [hrest, chunksGo_nil]
            rw [this] at hc
            simp at hc
          · have hne : chunksGo b n ((x :: xs).drop b) ≠ [] :=
              chunksGo_ne_nil b n ((x :: xs).drop b) hdrop hrest
            obtain ⟨r, rt, hr⟩ := List.exists_cons_of_ne_nil hne
            have hgt : b < xs.length + 1 := by
              by_contra hle
              push_neg at hle
              apply hrest
              apply List.drop_eq_nil_of_le
              simp only [List.length_cons]
              omega
            have hstep : chunksGo b (n + 1) (x :: xs) =
                (x :: xs).take b :: chunksGo b n ((x :: xs).drop b) := rfl
            rw [hstep, hr, List.dropLast_cons₂, List.mem_cons] at hc
            rcases hc with hc | hc
            · subst hc
              simp only [List.length_take, List.length_cons]
              omega
            · exact ih ((x :: xs).drop b) hdrop c (by rw [hr]; exact hc)

theorem chunksGo_getLast (b : ℕ) (hb : 0 < b) :
    ∀ (fuel : ℕ) (l : List α), l.length ≤ fuel → l ≠ [] →
      ∀ c, (chunksGo b fuel l).getLast? = some c →
        c.length = if l.length % b = 0 then b else l.length % b := by
  intro fuel
  induction fuel with
  | zero =>
      intro l hl hne
      exact absurd (List.length_eq_zero.mp (Nat.le_zero.mp hl)) hne
  | succ n ih =>
      intro l hl hne c hc
      cases l with
      | nil => exact absurd rfl hne
      | cons x xs =>
          have hx : xs.length + 1 ≤ n + 1 := by simpa using hl
          have hdrop : ((x :: xs).drop b).length ≤ n := by
            simp only [List.length_drop, List.length_cons]
            omega
          by_cases hrest : (x :: xs).drop b = []
          · have hle : xs.length + 1 ≤ b := by
              have := List.drop_eq_nil_iff.mp hrest
              simpa using this
            have hstep : chunksGo b (n + 1) (x :: xs) = [(x :: xs).take b] := by
              show (x :: xs).take b :: chunksGo b n ((x :: xs).drop b) = _
              rw [hrest, chunksGo_nil]
            rw [hstep] at hc
            simp only [List.getLast?_singleton, Option.some_inj] at hc
            subst hc
            simp only [List.length_take, List.length_cons]
            by_cases heq : xs.length + 1 = b
            · rw [heq]
              simp [Nat.mod_self]
            · have hlt : xs.length + 1 < b := by omega
              rw [Nat.mod_eq_of_lt hlt]
              simp only [if_neg (by omega : ¬ xs.length + 1 = 0)]
              omega
          · have hne2 : chunksGo b n ((x :: xs).drop b) ≠ [] :=
              chunksGo_ne_nil b n ((x :: xs).drop b) hdrop hrest
            obtain ⟨r, rt, hr⟩ := List.exists_cons_of_ne_nil hne2
            have hgt : b < xs.length + 1 := by
              by_contra hle
              push_neg at hle
              apply hrest
              apply List.drop_eq_nil_of_le
              simp only [List.length_cons]
              omega
            have hstep : chunksGo b (n + 1) (x :: xs) =
                (x :: xs).take b :: chunksGo b n ((x :: xs).drop b) := rfl
            rw [hstep, hr, List.getLast?_cons_cons] at hc
            have := ih ((x :: xs).drop b) hdrop hrest c (by rw [hr]; exact hc)
            have hmod : ((x :: xs).drop b).length % b = (x :: xs).length % b := by
              simp only [List.length_drop, List.length_cons]
              have h3 : xs.length + 1 = (xs.length + 1 - b) + b := by omega
              conv_rhs => rw [h3]
              rw [Nat.add_mod_right]
            rw [hmod] at this
            simpa using this

theorem batchScheduleGo_intersperse (b d : ℕ) (hb : 0 < b) :
    ∀ (fuel : ℕ) (l : List α), l.length ≤ fuel →
      batchScheduleGo b d fuel l =
        List.intersperse (BatchEvent.delay d)
          ((chunksGo b fuel l).map BatchEvent.chunk) := by
  intro fuel
  induction fuel with
  | zero =>
      intro l hl
      rw [List.length_eq_zero.mp (Nat.le_zero.mp hl), chunksGo_nil]
      rfl
  | succ n ih =>
      intro l hl
      cases l with
      | nil => rfl
      | cons x xs =>
          have hx : xs.length + 1 ≤ n + 1 := by simpa using hl
          have hdrop : ((x :: xs).drop b).length ≤ n := by
            simp only [List.length_drop, List.length_cons]
            omega
          have heq : batchScheduleGo b d (n + 1) (x :: xs) =
              if ((x :: xs).drop b).isEmpty then
                [BatchEvent.chunk ((x :: xs).take b)]
              else
                BatchEvent.chunk ((x :: xs).take b) ::
                  BatchEvent.delay d ::
                    batchScheduleGo b d n ((x :: xs).drop b) := rfl
          have hchunks : chunksGo b (n + 1) (x :: xs) =
              (x :: xs).take b :: chunksGo b n ((x :: xs).drop b) := rfl
          by_cases hrest : (x :: xs).drop b = []
          · rw [heq, if_pos (by simp [hrest]), hchunks, hrest, chunksGo_nil]
            rfl
          · have hne : chunksGo b n ((x :: xs).drop b) ≠ [] :=
              chunksGo_ne_nil b n ((x :: xs).drop b) hdrop hrest
            obtain ⟨r, rt, hr⟩ := List.exists_cons_of_ne_nil hne
            rw [heq, if_neg (by simp [hrest]), hchunks,
              ih ((x :: xs).drop b) hdrop, hr]
            rfl

theorem closeAccount_accountAddress (env : CloseEnv) (addr : String) :
    (closeAccount env addr).1.accountAddress = addr := by
  rcases h : env.getAccount with e | i
  · simp [closeAccount, h]
  · by_cases ha : i.amount > 0
    · simp [closeAccount, h, ha]
    · rcases h2 : env.getBalance with e | r
      · simp [closeAccount, h, ha, h2]
      · rcases h3 : env.sendAndConfirmTransaction with e | s
        · simp [closeAccount, h, ha, h2, h3]
        · simp [closeAccount, h, ha, h2, h3]

theorem length_filter_success_add_not (l : List ClosureResult) :
    (l.filter (fun r => r.success)).length +
      (l.filter (fun r => !r.success)).length = l.length := by
  induction l with
  | nil => rfl
  | cons x t ih =>
      by_cases hx : x.success <;>
        simp only [List.filter_cons, hx, Bool.not_true, Bool.not_false,
          if_pos, if_neg, List.length_cons] <;>
        simp [hx, ← ih] <;> omega

/-- C4: for every non-empty target list and positive batch size, the batch
loop partitions the targets in order into exactly `ceil(n / b)` chunks, each
of size `b` except the final chunk, whose size is `n mod b` when `b` does
not divide `n`; and the produced schedule is the chunks separated by the
fixed 1000 ms inter-chunk delay. -/
theorem batch_chunking (b : ℕ) (l : List α) (hb : 0 < b) (hl : l ≠ []) :
    (chunks b l).length = (l.length + b - 1) / b ∧
    (chunks b l).flatten = l ∧
    (∀ c ∈ (chunks b l).dropLast, c.length = b) ∧
    (∀ c, (chunks b l).getLast? = some c →
      c.length = if l.length % b = 0 then b else l.length % b) ∧
    batchSchedule b l =
      List.intersperse (BatchEvent.delay 1000)
        ((chunks b l).map BatchEvent.chunk) :=
  ⟨chunksGo_length b hb l.length l le_rfl,
   chunksGo_flatten b hb l.length l le_rfl,
   chunksGo_dropLast b hb l.length l le_rfl,
   fun c hc => chunksGo_getLast b hb l.length l le_rfl hl c hc,
   batchScheduleGo_intersperse b 1000 hb l.length l le_rfl⟩

/-- Witness for C4 at 13 targets and batch size 5: exactly 3 chunks of sizes
5, 5, 3, with the 1000 ms delay between consecutive chunks. -/
theorem batch_chunking_witness :
    (chunks 5 (List.range 13)).length = 3 ∧
    (chunks 5 (List.range 13)).flatten = List.range 13 ∧
    (chunks 5 (List.range 13)).map List.length = [5, 5, 3] ∧
    batchSchedule 5 (List.range 13) =
      List.intersperse (BatchEvent.delay 1000)
        ((chunks 5 (List.range 13)).map BatchEvent.chunk) := by
  have h := batch_chunking 5 (List.range 13) (by decide) (by decide)
  exact ⟨by rw [h.1]; decide, h.2.1, by decide, h.2.2.2.2⟩

/-- C6: the batch loop never aborts on per-item failures: for every facade
behaviour the collected outcomes are exactly one `closeAccount` outcome per
target, in order (so the loop finishes with a full report even when every
item fails), and the success/failure tallies partition the targets. -/
theorem batch_one_outcome_per_target (env : String → CloseEnv)
    (accounts : List TokenAccount) (b : ℕ) (hb : 0 < b) :
    batchCloseResults env b accounts =
      accounts.map (fun a => (closeAccount (env a.address) a.address).1) ∧
    (batchCloseResults env b accounts).length = accounts.length ∧
    (batchCloseResults env b accounts).map ClosureResult.accountAddress =
      accounts.map TokenAccount.address ∧
    batchCloseSucceeded env b accounts +
      ((batchCloseResults env b accounts).filter (fun r => !r.success)).length =
      accounts.length := by
  have hmain : batchCloseResults env b accounts =
      accounts.map (fun a => (closeAccount (env a.address) a.address).1) := by
    unfold batchCloseResults chunks
    rw [← List.map_flatten, chunksGo_flatten b hb accounts.length accounts le_rfl]
  refine ⟨hmain, ?_, ?_, ?_⟩
  · rw [hmain, List.length_map]
  · rw [hmain, List.map_map]
    exact List.map_congr_left fun a _ => closeAccount_accountAddress _ _
  · unfold batchCloseSucceeded
    rw [length_filter_success_add_not, hmain, List.length_map]

/-- Witness for C6: three targets, batch size 2, every closure failing; the
batch still yields one outcome per target and zero successes. -/
theorem batch_one_outcome_per_target_witness :
    batchCloseResults envBatchAllFail 2 accountsThree =
      accountsThree.map
        (fun a => (closeAccount (envBatchAllFail a.address) a.address).1) ∧
    (batchCloseResults envBatchAllFail 2 accountsThree).length = 3 ∧
    batchCloseSucceeded envBatchAllFail 2 accountsThree = 0 := by
  have h := batch_one_outcome_per_target envBatchAllFail accountsThree 2 (by decide)
  exact ⟨h.1, by rw [h.2.1]; rfl, rfl⟩

theorem tally_totalRent_eq (rs : List ClosureResult) :
    ∀ t : BatchTally, (rs.foldl tallyStep t).totalRentRecovered =
      t.totalRentRecovered +
        ((rs.filter (fun r => r.success)).map ClosureResult.rentRecovered).sum := by
  induction rs with
  | nil => intro t; simp
  | cons x rest ih =>
      intro t
      by_cases hx : x.success
      · rw [List.foldl_cons, ih]
        simp [List.filter_cons, tallyStep, hx]
        ring
      · rw [List.foldl_cons, ih]
        simp [List.filter_cons, tallyStep, hx]

/-- C5: the result accounting of the legacy batch computes the incidental
cost (`gasConsumed`) as the observed wallet delta minus the sum of the
outcome-reported recovered values; in particular for balances 10 and 10.08
SOL and outcomes summing to 0.10 SOL recovered it equals -0.02 SOL. -/
theorem gasConsumed_eq_delta_minus_recovered
    (balanceBeforeSOL balanceAfterSOL : ℚ) (results : List ClosureResult) :
    gasConsumed balanceBeforeSOL balanceAfterSOL results =
      (balanceAfterSOL - balanceBeforeSOL) -
        ((results.filter (fun r => r.success)).map ClosureResult.rentRecovered).sum ∧
    (((results.filter (fun r => r.success)).map ClosureResult.rentRecovered).sum
        = 1/10 →
      gasConsumed 10 (252/25) results = -(1/50)) := by
  have hkey : ∀ rs : List ClosureResult, (tallyResults rs).totalRentRecovered =
      ((rs.filter (fun r => r.success)).map ClosureResult.rentRecovered).sum := by
    intro rs
    unfold tallyResults
    rw [tally_totalRent_eq]
    simp
  constructor
  · unfold gasConsumed
    rw [hkey]
  · intro hsum
    unfold gasConsumed
    rw [hkey, hsum]
    norm_num

/-- Witness for C5: one successful outcome reporting 0.10 SOL recovered,
balances 10 and 10.08 SOL, incidental cost -0.02 SOL. -/
theorem gasConsumed_eq_delta_minus_recovered_witness :
    gasConsumed 10 (252/25) resultsTenth = -(1/50) :=
  (gasConsumed_eq_delta_minus_recovered 10 (252/25) resultsTenth).2
    (by norm_num [resultsTenth])

/-- C9 counterexample: a fee config that provides the compute-unit price
value 0 is configured, yet the assembled instruction list contains no
compute-unit-price directive, because the source tests JavaScript
truthiness (`if (config?.computeUnitPrice)`) rather than presence. -/
theorem buildTransferInstructions_zero_price_counterexample :
    cfgZeroPrice.computeUnitPrice = some 0 ∧
    buildTransferInstructions "From1" "To1" 5 (some cfgZeroPrice) =
      [Instruction.transfer "From1" "To1" 5] ∧
    (buildTransferInstructions "From1" "To1" 5 (some cfgZeroPrice)).any
      isSetComputeUnitPrice = false :=
  ⟨rfl, rfl, rfl⟩

/-- C9 (amended): the instruction list is exactly the compute-unit-price
directive when a nonzero price is configured, then the compute-unit-limit
directive when a nonzero limit is configured, then the mandatory system
transfer last; and the transaction built around it is in the versioned v0
format. -/
theorem buildTransferInstructions_order (fromPubkey toAddress : String)
    (lamports : ℕ) (config : Option TransferConfig) (bh : Blockhash) :
    buildTransferInstructions fromPubkey toAddress lamports config =
      (match config.bind TransferConfig.computeUnitPrice with
       | some p => if p = 0 then [] else [Instruction.setComputeUnitPrice p]
       | none => []) ++
      (match config.bind TransferConfig.computeUnitLimit with
       | some u => if u = 0 then [] else [Instruction.setComputeUnitLimit u]
       | none => []) ++
      [Instruction.transfer fromPubkey toAddress lamports] ∧
    (buildTransferTransaction fromPubkey bh toAddress lamports config).version =
      TransactionVersion.v0 ∧
    (buildTransferTransaction fromPubkey bh toAddress lamports
        config).message.instructions =
      buildTransferInstructions fromPubkey toAddress lamports config ∧
    (buildTransferInstructions fromPubkey toAddress lamports config).getLast? =
      some (Instruction.transfer fromPubkey toAddress lamports) := by
  refine ⟨?_, rfl, rfl, ?_⟩
  · rcases config with _ | ⟨cp, cl⟩
    · rfl
    · rcases cp with _ | p <;> rcases cl with _ | u
      · rfl
      · by_cases hu : u = 0 <;>
          simp [buildTransferInstructions, jsTruthy, hu]
      · by_cases hp : p = 0 <;>
          simp [buildTransferInstructions, jsTruthy, hp]
      · by_cases hp : p = 0 <;> by_cases hu : u = 0 <;>
          simp [buildTransferInstructions, jsTruthy, hp, hu]
  · unfold buildTransferInstructions
    simp only []
    exact List.getLast?_concat _

theorem filterZeroBalance_ok_info :
    ∀ (hs zs : List Holding), filterZeroBalance hs = .ok zs →
      ∀ h ∈ hs, ∃ i, h.info = .ok i := by
  intro hs
  induction hs with
  | nil => intro zs _ h hh; simp at hh
  | cons x t ih =>
      intro zs hok h hh
      rcases hinfo : x.info with e | i
      · rw [show filterZeroBalance (x :: t) =
            match x.info with
            | .error e => .error e
            | .ok info =>
                match filterZeroBalance t with
                | .error e => .error e
                | .ok tail => .ok (if info.uiAmount = 0 then x :: tail else tail)
            from rfl, hinfo] at hok
        simp at hok
      · rcases hrest : filterZeroBalance t with e | tail
        · rw [show filterZeroBalance (x :: t) =
              match x.info with
              | .error e => .error e
              | .ok info =>
                  match filterZeroBalance t with
                  | .error e => .error e
                  | .ok tail => .ok (if info.uiAmount = 0 then x :: tail else tail)
              from rfl, hinfo, hrest] at hok
          simp at hok
        · rcases List.mem_cons.mp hh with rfl | hmem
          · exact ⟨i, hinfo⟩
          · exact ih tail hrest h hmem

theorem filterZeroBalance_mem :
    ∀ (hs zs : List Holding), filterZeroBalance hs = .ok zs →
      ∀ h ∈ hs, ∀ i, h.info = .ok i → i.uiAmount = 0 → h ∈ zs := by
  intro hs
  induction hs with
  | nil => intro zs _ h hh; simp at hh
  | cons x t ih =>
      intro zs hok h hh i hi h0
      have hstep : filterZeroBalance (x :: t) =
          match x.info with
          | .error e => .error e
          | .ok info =>
              match filterZeroBalance t with
              | .error e => .error e
              | .ok tail => .ok (if info.uiAmount = 0 then x :: tail else tail) := rfl
      rcases hinfo : x.info with e | xi
      · rw [hstep, hinfo] at hok
        simp at hok
      · rcases hrest : filterZeroBalance t with e | tail
        · rw [hstep, hinfo, hrest] at hok
          simp at hok
        · rw [hstep, hinfo, hrest] at hok
          simp only [Except.ok.injEq] at hok
          rcases List.mem_cons.mp hh with rfl | hmem
          · rw [hinfo] at hi
            simp only [Except.ok.injEq] at hi
            subst hi
            rw [← hok, if_pos h0]
            exact List.mem_cons_self _ _
          · have hz := ih tail hrest h hmem i hi h0
            rw [← hok]
            split
            · exact List.mem_cons_of_mem _ hz
            · exact hz

theorem mapCandidates_mem (env : ScanEnv) :
    ∀ (zs : List Holding) (cs : List TokenAccount),
      mapCandidates env zs = .ok cs →
      ∀ h ∈ zs, ∀ c, buildCandidate env h = .ok c → c ∈ cs := by
  intro zs
  induction zs with
  | nil => intro cs _ h hh; simp at hh
  | cons x t ih =>
      intro cs hok h hh c hc
      have hstep : mapCandidates env (x :: t) =
          match buildCandidate env x with
          | .error e => .error e
          | .ok c =>
              match mapCandidates env t with
              | .error e => .error e
              | .ok cs => .ok (c :: cs) := rfl
      rcases hbx : buildCandidate env x with e | cx
      · rw [hstep, hbx] at hok
        simp at hok
      · rcases hrest : mapCandidates env t with e | ct
        · rw [hstep, hbx, hrest] at hok
          simp at hok
        · rw [hstep, hbx, hrest] at hok
          simp only [Except.ok.injEq] at hok
          rcases List.mem_cons.mp hh with rfl | hmem
          · rw [hbx] at hc
            simp only [Except.ok.injEq] at hc
            subst hc
            rw [← hok]
            exact List.mem_cons_self _ _
          · rw [← hok]
            exact List.mem_cons_of_mem _ (ih ct hrest h hmem c hc)

theorem getClosableTokenAccounts_ok_inv (env : ScanEnv) (w : String)
    (res : TokenAccountsResult)
    (hok : getClosableTokenAccounts env w = .ok res) :
    scanBody env = .ok res := by
  unfold getClosableTokenAccounts at hok
  by_cases hw : w = ""
  · rw [if_pos hw] at hok
    simp at hok
  · rw [if_neg hw] at hok
    rcases hs : scanBody env with e | r
    · rw [hs] at hok
      simp at hok
    · rw [hs] at hok
      simp only [Except.ok.injEq] at hok
      rw [hok]

theorem scanBody_ok_inv (env : ScanEnv) (res : TokenAccountsResult)
    (holdings : List Holding)
    (hp : env.getParsedTokenAccountsByOwner = .ok holdings)
    (hok : scanBody env = .ok res) :
    ∃ zs, filterZeroBalance holdings = .ok zs ∧
      ∃ cs, mapCandidates env zs = .ok cs ∧ res.accounts = cs := by
  have hbody : scanBody env =
      (match filterZeroBalance holdings with
       | .error e => .error e
       | .ok zeroBalance =>
           match mapCandidates env zeroBalance with
           | .error e => .error e
           | .ok accountInfos =>
               let totalRentLamports :=
                 accountInfos.foldl (fun sum account => sum + account.rentLamports) 0
               .ok { totalAccounts := holdings.length
                     closableAccounts := accountInfos.length
                     accounts := accountInfos
                     totalRentLamports := totalRentLamports
                     totalRentSol := (totalRentLamports : ℚ) / LAMPORTS_PER_SOL }) := by
    unfold scanBody
    rw [hp]
  rw [hbody] at hok
  rcases hfz : filterZeroBalance holdings with e | zs
  · rw [hfz] at hok
    simp at hok
  · rw [hfz] at hok
    dsimp only at hok
    rcases hmc : mapCandidates env zs with e | cs
    · rw [hmc] at hok
      simp at hok
    · rw [hmc] at hok
      simp only [Except.ok.injEq] at hok
      exact ⟨zs, rfl, cs, hmc, by rw [← hok]⟩

/-- C8 counterexample: a scan over one well-formed zero-balance holding and
one malformed holding does not return the candidate built from the
well-formed record: the whole scan aborts with the wrapped error, returning
no candidate list at all, even though the well-formed record alone is
processable. -/
theorem scan_malformed_abort_counterexample :
    getClosableTokenAccounts scanEnvMalformed "W" =
      .error ("查询代币账户失败: " ++ "malformed record") ∧
    (getClosableTokenAccounts scanEnvMalformed "W").toOption = none ∧
    scanAccountsOrEmpty scanEnvMalformed "W" = [] ∧
    filterZeroBalance [holdingGood] = .ok [holdingGood] :=
  ⟨rfl, rfl, rfl, rfl⟩

/-- C8 (amended): a malformed holding record is not skipped with a warning;
any record whose parsed fields cannot be read (or whose secondary lookup
fails) aborts the whole scan, which rethrows the error wrapped in
查询代币账户失败 and returns no partial candidate list. -/
theorem scan_malformed_aborts (env : ScanEnv) (w : String)
    (holdings : List Holding)
    (hw : w ≠ "")
    (hp : env.getParsedTokenAccountsByOwner = .ok holdings) :
    (∀ e, scanBody env = .error e →
      getClosableTokenAccounts env w = .error ("查询代币账户失败: " ++ e)) ∧
    (∀ h e, h ∈ holdings → h.info = .error e →
      (getClosableTokenAccounts env w).toOption = none) := by
  constructor
  · intro e he
    unfold getClosableTokenAccounts
    rw [if_neg hw, he]
  · intro h e hmem hinfo
    unfold getClosableTokenAccounts
    rw [if_neg hw]
    rcases hs : scanBody env with e2 | r
    · rfl
    · exfalso
      obtain ⟨zs, hfz, _cs, _hmc, _hacc⟩ := scanBody_ok_inv env r holdings hp hs
      obtain ⟨i, hi⟩ := filterZeroBalance_ok_info holdings zs hfz h hmem
      rw [hinfo] at hi
      simp at hi

/-- Witness for C8 at the concrete malformed-scan environment. -/
theorem scan_malformed_aborts_witness :
    getClosableTokenAccounts scanEnvMalformed "W" =
      .error ("查询代币账户失败: " ++ "malformed record") ∧
    (getClosableTokenAccounts scanEnvMalformed "W").toOption = none := by
  have h := scan_malformed_aborts scanEnvMalformed "W" [holdingGood, holdingBad]
    (by decide) rfl
  exact ⟨h.1 "malformed record" rfl,
    h.2 holdingBad "malformed record" (by simp) rfl⟩

/-- C10: a zero-balance holding whose secondary account-info lookup returns
no account record is still included in the returned candidate list, with
`rentLamports = 0` and `rentSol = 0`; and every returned candidate has a
non-negative `rentLamports`. -/
theorem scan_includes_null_lookup (env : ScanEnv) (w : String)
    (res : TokenAccountsResult) (holdings : List Holding) (h : Holding)
    (mint : String)
    (hscan : getClosableTokenAccounts env w = .ok res)
    (hp : env.getParsedTokenAccountsByOwner = .ok holdings)
    (hmem : h ∈ holdings)
    (hinfo : h.info = .ok { mint := mint, uiAmount := 0 })
    (hlook : env.getAccountInfo h.pubkey = .ok none) :
    ({ address := h.pubkey, mint := mint, rentLamports := 0, rentSol := 0 } :
      TokenAccount) ∈ res.accounts ∧
    ∀ a ∈ res.accounts, 0 ≤ a.rentLamports := by
  have hbody := getClosableTokenAccounts_ok_inv env w res hscan
  obtain ⟨zs, hfz, cs, hmc, hacc⟩ := scanBody_ok_inv env res holdings hp hbody
  have hz : h ∈ zs := filterZeroBalance_mem holdings zs hfz h hmem _ hinfo rfl
  have hbuild : buildCandidate env h =
      .ok { address := h.pubkey, mint := mint, rentLamports := 0, rentSol := 0 } := by
    unfold buildCandidate
    rw [hinfo, hlook]
    simp
  refine ⟨?_, fun a _ => Nat.zero_le _⟩
  rw [hacc]
  exact mapCandidates_mem env zs cs hmc h hz _ hbuild

/-- Witness for C10 at the concrete environment whose only holding has a
null secondary lookup. -/
theorem scan_includes_null_lookup_witness :
    ({ address := "Empty", mint := "MintB", rentLamports := 0, rentSol := 0 } :
      TokenAccount) ∈ scanAccountsOrEmpty scanEnvNoInfo "W" := by
  have hscan : getClosableTokenAccounts scanEnvNoInfo "W" =
      .ok { totalAccounts := 1, closableAccounts := 1,
            accounts := [{ address := "Empty", mint := "MintB",
                           rentLamports := 0, rentSol := 0 }],
            totalRentLamports := 0, totalRentSol := 0 } := by
    unfold getClosableTokenAccounts scanBody
    rw [if_neg (by decide : ¬ "W" = "")]
    norm_num [scanEnvNoInfo, filterZeroBalance, mapCandidates, buildCandidate,
      holdingNoInfo, LAMPORTS_PER_SOL]
  have h := scan_includes_null_lookup scanEnvNoInfo "W"
    { totalAccounts := 1, closableAccounts := 1,
      accounts := [{ address := "Empty", mint := "MintB",
                     rentLamports := 0, rentSol := 0 }],
      totalRentLamports := 0, totalRentSol := 0 }
    [holdingNoInfo] holdingNoInfo "MintB" hscan rfl (by simp) rfl rfl
  unfold scanAccountsOrEmpty
  rw [hscan]
  exact h.1
